import Mathlib

/-!
Verification of the `gtfs-rt-irl` Home Assistant sensor (`sensor.py`).

This file gives a shallow embedding of the claim-relevant parts of
`src/gtfs-rt-irl/sensor.py`:

* the calendar validator `validate_service` (sensor.py lines 126-163),
* the schedule query loop `get_times` (lines 109-245),
* the realtime merge `PublicTransportData._update_route_statuses`
  (lines 421-486), and
* the vehicle-position reader `PublicTransportData._get_vehicle_positions`
  (lines 488-510).

Machine integers are modelled as `Int`/`Nat`; Python `time.mktime ∘
time.strptime` round trips are modelled by storing structured dates/times in
the database rows and converting with an explicit epoch function (the offset
of the local timezone is constant within one run and cancels in every
comparison the code makes, so it is taken to be zero).  Python exceptions
(subscripting `None` raises `TypeError`) are modelled with `Except`.
Python's `sorted`/`list.sort` are stable ascending sorts and are modelled by
`List.insertionSort`, which is stable and sorts ascending for the given
relation.
-/

namespace GtfsRtIrl

/-! ## Dates and times -/

/-- A calendar date, as stored by pygtfs in the `calendar` table
(`start_date`/`end_date` columns, rendered `"%Y-%m-%d"`). -/
structure Date where
  year : Nat
  month : Nat
  day : Nat
deriving DecidableEq

/-- A wall-clock instant to second precision, as produced by
`datetime.datetime.today()` / `datetime.datetime.now()` and as stored in the
`stop_times` table (`"%Y-%m-%d %H:%M:%S.%f"` strings). -/
structure DateTime where
  year : Nat
  month : Nat
  day : Nat
  hour : Nat
  minute : Nat
  second : Nat
deriving DecidableEq

def isLeap (y : Nat) : Bool :=
  (y % 4 == 0 && y % 100 != 0) || (y % 400 == 0)

def daysInMonth (y m : Nat) : Nat :=
  if m = 2 then (if isLeap y then 29 else 28)
  else if m = 4 ∨ m = 6 ∨ m = 9 ∨ m = 11 then 30
  else 31

/-- Days from 1970-01-01 to the first day of year `y` (for `y ≥ 1970`). -/
def daysBeforeYear (y : Nat) : Nat :=
  (List.range (y - 1970)).foldl
    (fun acc i => acc + (if isLeap (1970 + i) then 366 else 365)) 0

/-- Days from the first of January of `y` to the first day of month `m`. -/
def daysBeforeMonth (y m : Nat) : Nat :=
  (List.range (m - 1)).foldl (fun acc i => acc + daysInMonth y (i + 1)) 0

/-- Days elapsed since the Unix epoch date 1970-01-01. -/
def Date.daysSinceEpoch (d : Date) : Nat :=
  daysBeforeYear d.year + daysBeforeMonth d.year d.month + (d.day - 1)

/-- Model of `time.mktime(time.strptime(s, "%Y-%m-%d"))`: epoch seconds at
midnight at the start of the date. -/
def Date.toEpoch (d : Date) : Int :=
  86400 * (d.daysSinceEpoch : Int)

def DateTime.date (t : DateTime) : Date :=
  ⟨t.year, t.month, t.day⟩

/-- Model of `time.mktime(time.strptime(s, "%Y-%m-%d %H:%M:%S.%f"))`:
epoch seconds of the instant (`mktime` discards fractional seconds). -/
def DateTime.toEpoch (t : DateTime) : Int :=
  t.date.toEpoch + 3600 * (t.hour : Int) + 60 * (t.minute : Int) + (t.second : Int)

/-- Model of `datetime.datetime.today().weekday()`: Monday is `0`.
1970-01-01 was a Thursday (index 3). -/
def DateTime.weekday (t : DateTime) : Nat :=
  (t.date.daysSinceEpoch + 3) % 7

def pad2 (n : Nat) : String :=
  if n < 10 then "0" ++ toString n else toString n

def pad4 (n : Nat) : String :=
  if n < 10 then "000" ++ toString n
  else if n < 100 then "00" ++ toString n
  else if n < 1000 then "0" ++ toString n
  else toString n

/-- The `"%Y-%m-%d %H:%M:%S.%f"` string under which an instant is stored in
the `stop_times` table (microseconds are zero in pygtfs output). -/
def DateTime.render (t : DateTime) : String :=
  pad4 t.year ++ "-" ++ pad2 t.month ++ "-" ++ pad2 t.day ++ " " ++
  pad2 t.hour ++ ":" ++ pad2 t.minute ++ ":" ++ pad2 t.second ++ ".000000"

/-! ## The static schedule database

One structure per sqlite table touched by `get_times`.  `fetchone` on a
`SELECT ... WHERE` is `List.find?`; `fetchall` is `List.filter`. -/

/-- A row of `calendar` as selected by `SELECT *`: pygtfs lays the columns
out as (feed_id, service_id, monday..sunday, start_date, end_date), so the
weekday flags sit at indices 2..8 (the code reads `[today + 2]`), and the
date range at indices 9 and 10. -/
structure CalendarRow where
  service_id : String
  monday : Nat
  tuesday : Nat
  wednesday : Nat
  thursday : Nat
  friday : Nat
  saturday : Nat
  sunday : Nat
  start_date : Date
  end_date : Date
deriving DecidableEq

/-- `list(days_of_week)[today + 2]` for `today = 0..6` (Monday = 0). -/
def CalendarRow.dayFlag (r : CalendarRow) : Nat → Nat
  | 0 => r.monday
  | 1 => r.tuesday
  | 2 => r.wednesday
  | 3 => r.thursday
  | 4 => r.friday
  | 5 => r.saturday
  | 6 => r.sunday
  | _ => 0

/-- A row of `calendar_dates` (service exceptions); the code matches on
`service_id` and the `"%Y-%m-%d"` date string. -/
structure CalendarDateRow where
  service_id : String
  date : Date
deriving DecidableEq

structure StopRow where
  stop_id : String
  stop_name : String
deriving DecidableEq

structure RouteRow where
  agency_id : String
  route_id : String
  route_short_name : String
deriving DecidableEq

structure TripRow where
  trip_id : String
  service_id : String
  route_id : String
deriving DecidableEq

structure StopTimeRow where
  trip_id : String
  stop_id : String
  arrival_time : DateTime
  departure_time : DateTime
deriving DecidableEq

structure DB where
  stops : List StopRow
  routes : List RouteRow
  trips : List TripRow
  stop_times : List StopTimeRow
  calendar : List CalendarRow
  calendar_dates : List CalendarDateRow
deriving DecidableEq

/-- Python runtime errors surfaced by the embedded code.  `typeError` models
`TypeError: 'NoneType' object is not subscriptable / not iterable`, raised
when a `fetchone()` that returned `None` is subscripted or passed to
`list`. -/
inductive PyError where
  | typeError
deriving DecidableEq

/-! ## validate_service (sensor.py lines 126-163) -/

/-- Model of the nested function `validate_service(service_id)`.

Source, sensor.py lines 126-163: fetch the `calendar` row for the service
(line 131); `list(days_of_week)[today + 2]` crashes with `TypeError` when
`fetchone` returned `None` (line 136); read the weekday flag; compute
`d_t = mktime(strptime(str(datetime.today()), "%Y-%m-%d %H:%M:%S.%f"))`
(an epoch value that includes the current time of day, line 141) and the
epochs `dt1`, `dt2` of `start_date`/`end_date` at midnight (lines 144-145);
`validity = bool(dt1 <= d_t <= dt2)` (line 148); when the weekday flag is
`1` and `validity` holds, look for a `calendar_dates` exception row for
(service, today) and report inactive when one exists (lines 150-162). -/
def validate_service (db : DB) (now : DateTime) (service_id : String) :
    Except PyError Bool :=
  match db.calendar.find? (fun r => r.service_id == service_id) with
  | none => .error .typeError
  | some days_of_week =>
    let today := now.weekday
    let today_flag := days_of_week.dayFlag today
    let d_t := now.toEpoch
    let dt1 := days_of_week.start_date.toEpoch
    let dt2 := days_of_week.end_date.toEpoch
    let validity := decide (dt1 ≤ d_t ∧ d_t ≤ dt2)
    if today_flag == 1 && validity then
      match db.calendar_dates.find?
          (fun r => r.service_id == service_id && r.date == now.date) with
      | some _ => .ok false
      | none => .ok true
    else .ok false

/-! ## get_times (sensor.py lines 109-245) -/

/-- A configured (stop name, route short name, operator) tuple, the shape of
the `route_stops` elements handed to `get_times`. -/
structure Selector where
  stop_name : String
  route : String
  operator : String
deriving DecidableEq

/-- One element of the `stop_times` list built by `get_times` (line 225):
`(req_stop_name, req_route, req_trip, int(diff / 60), dep_time_str)`. -/
structure Departure where
  stop_name : String
  route : String
  trip_id : String
  minutes : Int
  dep_time_str : String
deriving DecidableEq

/-- The inner `for trip_id, service_id in ctrips.fetchall()` loop of
`get_times` (sensor.py lines 197-233).  For each trip of the route: fetch
the stop-time row for (trip, stop); when present, parse the departure string
to `epoch_dep`, format the current time of day onto the date 1970-01-01 and
parse it to `epoch_now` (lines 216-220); keep the trip when
`epoch_dep >= epoch_now` and `validate_service(service_id)` holds, recording
`int(diff / 60)` minutes (truncating division; `diff ≥ 0` here).  An
exception from `validate_service` propagates and aborts the whole call. -/
def processTrips (db : DB) (now : DateTime)
    (req_stop_id req_stop_name req_route : String) :
    List TripRow → Except PyError (List Departure)
  | [] => .ok []
  | t :: ts =>
    match db.stop_times.find?
        (fun st => st.trip_id == t.trip_id && st.stop_id == req_stop_id) with
    | none => processTrips db now req_stop_id req_stop_name req_route ts
    | some departure =>
      let dep_time_str := departure.departure_time.render
      let epoch_dep := departure.departure_time.toEpoch
      let epoch_now :=
        (DateTime.mk 1970 1 1 now.hour now.minute now.second).toEpoch
      if epoch_dep ≥ epoch_now then
        match validate_service db now t.service_id with
        | .error e => .error e
        | .ok valid =>
          match processTrips db now req_stop_id req_stop_name req_route ts with
          | .error e => .error e
          | .ok rest =>
            if valid then
              .ok (⟨req_stop_name, req_route, t.trip_id,
                    Int.tdiv (epoch_dep - epoch_now) 60, dep_time_str⟩ :: rest)
            else .ok rest
      else processTrips db now req_stop_id req_stop_name req_route ts

/-- The outer `for r_s in route_stops` loop of `get_times` (sensor.py lines
167-233).  `stop_data = cstops.fetchone()` followed by `stop_data[0]`
(lines 177-178) raises `TypeError` when no stop has the configured name;
`valid_operator = croutes.fetchone()` followed by `valid_operator[1]`
(lines 188-189) raises `TypeError` when no route matches the configured
(short name, operator) — the `if valid_operator is not None` test at line
191 sits after the subscription and can no longer be `False` when it is
reached. -/
def processSelectors (db : DB) (now : DateTime) :
    List Selector → Except PyError (List Departure)
  | [] => .ok []
  | s :: ss =>
    match db.stops.find? (fun r => r.stop_name == s.stop_name) with
    | none => .error .typeError
    | some stop_data =>
      match db.routes.find?
          (fun r => r.route_short_name == s.route && r.agency_id == s.operator) with
      | none => .error .typeError
      | some valid_operator =>
        match processTrips db now stop_data.stop_id s.stop_name s.route
            (db.trips.filter (fun t => t.route_id == valid_operator.route_id)) with
        | .error e => .error e
        | .ok here =>
          match processSelectors db now ss with
          | .error e => .error e
          | .ok rest => .ok (here ++ rest)

/-- The comparison key of `sorted(stop_times, key=lambda x: x[3])`. -/
def depLe (a b : Departure) : Prop := a.minutes ≤ b.minutes

instance : DecidableRel depLe := fun a b => Int.decLe a.minutes b.minutes

instance : IsTotal Departure depLe := ⟨fun a b => Int.le_total a.minutes b.minutes⟩

instance : IsTrans Departure depLe := ⟨fun _ _ _ hab hbc => le_trans hab hbc⟩

/-- Model of `get_times(route_stops, gtfs_database_path, set_limit)`
(sensor.py lines 109-245): run the selector loop, then
`stop_times = sorted(stop_times, key=lambda x: x[3])` — a stable ascending
sort on the minutes field, modelled by `List.insertionSort` — and
`stop_times = stop_times[0:set_limit]` (lines 235-236). -/
def get_times (db : DB) (now : DateTime) (route_stops : List Selector)
    (set_limit : Nat) : Except PyError (List Departure) :=
  match processSelectors db now route_stops with
  | .error e => .error e
  | .ok stop_times => .ok ((List.insertionSort depLe stop_times).take set_limit)

/-! ## The realtime feed

Models of the `gtfs_realtime_pb2.FeedMessage` entities as the code reads
them.  Protobuf `HasField` checks become `Option`; sub-messages the code
reads without a `HasField` check (`trip_update.vehicle`, `vehicle.trip`,
`vehicle.vehicle`, `vehicle.position`) are always present in protobuf (they
default to empty messages), so they are plain fields whose string members
default to `""`.  Latitude/longitude are never computed with, only carried,
so they are modelled as integers. -/

structure Position where
  latitude : Int
  longitude : Int
deriving DecidableEq

/-- One element of `trip_update.stop_time_update`; `hasArrival` models
`stop.HasField("arrival")` and `arrivalDelay` the `arrival.delay` seconds. -/
structure StopTimeUpdate where
  hasArrival : Bool
  arrivalDelay : Int
deriving DecidableEq

/-- The `trip_update` sub-message: `trip_update.trip.trip_id`,
`trip_update.stop_time_update`, and `trip_update.vehicle.id`. -/
structure TripUpdate where
  trip_id : String
  stop_time_update : List StopTimeUpdate
  vehicle_id : String
deriving DecidableEq

/-- One entity of the trip-update feed; `trip_update` is `none` when
`entity.HasField("trip_update")` is false. -/
structure TUEntity where
  trip_update : Option TripUpdate
deriving DecidableEq

/-- One entity of the vehicle-position feed as read by
`_get_vehicle_positions`: `entity.vehicle.trip.route_id` (empty string when
the vehicle is not in service), `entity.vehicle.vehicle.id`, and
`entity.vehicle.position`. -/
structure VehicleEntity where
  trip_route_id : String
  vehicle_id : String
  position : Position
deriving DecidableEq

/-- An HTTP response from `requests.get`, with the protobuf decode of its
body: `content` is what `feed.ParseFromString(response.content)` yields on
that body. -/
structure TripResponse where
  status_code : Nat
  content : List TUEntity
deriving DecidableEq

/-- An HTTP response of the vehicle-position endpoint. -/
structure VehicleResponse where
  status_code : Nat
  content : List VehicleEntity
deriving DecidableEq

/-! ## Python dict model

`positions` in `_get_vehicle_positions` is a Python dict keyed by vehicle
id.  A dict holds each key once: assigning to an existing key replaces its
value in place, assigning a fresh key appends it. -/

def dictInsert (m : List (String × Position)) (k : String) (v : Position) :
    List (String × Position) :=
  if (m.find? (fun p => p.1 == k)).isSome then
    m.map (fun p => if p.1 == k then (k, v) else p)
  else m ++ [(k, v)]

/-- `m.get(k)`: `none` models Python `None`. -/
def dictGet (m : List (String × Position)) (k : String) : Option Position :=
  (m.find? (fun p => p.1 == k)).map (fun p => p.2)

/-- How often key `k` occurs in the dict. -/
def countKey (m : List (String × Position)) (k : String) : Nat :=
  (m.filter (fun p => p.1 == k)).length

/-! ## _get_vehicle_positions (sensor.py lines 488-510) -/

/-- Model of `PublicTransportData._get_vehicle_positions`.  A status code
other than 200 only logs an error (lines 493-497); the body is parsed and
processed regardless.  Each entity whose `vehicle.trip.route_id` is empty is
skipped as not in service (lines 504-506); otherwise
`positions[vehicle.vehicle.id] = vehicle.position` (line 508), so a later
entity with the same id overwrites an earlier one.  `vpStep` is one loop
iteration; `get_vehicle_positions` is the whole function. -/
def vpStep (positions : List (String × Position)) (entity : VehicleEntity) :
    List (String × Position) :=
  if entity.trip_route_id == "" then positions
  else dictInsert positions entity.vehicle_id entity.position

def get_vehicle_positions (response : VehicleResponse) :
    List (String × Position) :=
  response.content.foldl vpStep []

/-! ## _update_route_statuses (sensor.py lines 421-486) -/

/-- The value held by the Python variable `vehicle_position`: it starts as
the integer `0` (line 459), and each trip-update entity overwrites it with
`vehicle_positions.get(entity.trip_update.vehicle.id)`, which is either a
position or Python `None`. -/
inductive VehiclePositionValue where
  | intZero
  | pyNone
  | pos (p : Position)
deriving DecidableEq

/-- One `StopDetails` object (sensor.py lines 424-431). -/
structure StopDetails where
  arrival_time : Int
  position : VehiclePositionValue
  dep_time : String
deriving DecidableEq

/-- The inner `for stop in entity.trip_update.stop_time_update` loop
(lines 463-467): for each update with an `arrival` field, add
`int(stop.arrival.delay / 60)` — a truncating-toward-zero division applied
per stop-time update — to the running total. -/
def stopDelaySum (updates : List StopTimeUpdate) : Int :=
  updates.foldl
    (fun acc stop =>
      if stop.hasArrival then acc + Int.tdiv stop.arrivalDelay 60 else acc)
    0

/-- One iteration of the `for entity in feed.entity` loop (lines 460-470),
acting on the pair (modified_time, vehicle_position).  Note the source's
indentation: the delay accumulation is guarded by
`entity.trip_update.trip.trip_id == trip_no`, but the
`vehicle_position = vehicle_positions.get(entity.trip_update.vehicle.id)`
assignment is not — it runs for every trip-update entity. -/
def mergeStep (vehicle_positions : List (String × Position)) (trip_no : String)
    (st : Int × VehiclePositionValue) (entity : TUEntity) :
    Int × VehiclePositionValue :=
  match entity.trip_update with
  | none => st
  | some tu =>
    let modified :=
      if tu.trip_id == trip_no then st.1 + stopDelaySum tu.stop_time_update
      else st.1
    let vp :=
      match dictGet vehicle_positions tu.vehicle_id with
      | some p => VehiclePositionValue.pos p
      | none => VehiclePositionValue.pyNone
    (modified, vp)

/-- The per-departure body of `_update_route_statuses` (lines 451-476):
slice `dep_time[10:16]`, start from the static minutes, run the entity loop,
and build the `StopDetails`. -/
def processDeparture (feed_entities : List TUEntity)
    (vehicle_positions : List (String × Position)) (d : Departure) :
    StopDetails :=
  let dep_time := (d.dep_time_str.drop 10).take 6
  let st := feed_entities.foldl (mergeStep vehicle_positions d.trip_id)
    (d.minutes, VehiclePositionValue.intZero)
  ⟨st.1, st.2, dep_time⟩

/-- The nested `departure_times` dict: route number → stop name → list of
`StopDetails`. -/
abbrev Groups := List (String × List (String × List StopDetails))

/-- Look up one (route, stop) group ( `[]` when the keys are absent). -/
def groupsGet (g : Groups) (route stop : String) : List StopDetails :=
  match g.find? (fun p => p.1 == route) with
  | none => []
  | some rp =>
    match rp.2.find? (fun p => p.1 == stop) with
    | none => []
    | some sp => sp.2

/-- Lines 474-477: ensure `departure_times[route_no][stop_name]` exists and
append to it.  (The source resets the entry when `.get(stop_name)` is falsy,
i.e. absent or the empty list; appending to a fresh empty list and appending
to a present empty list coincide.) -/
def appendToStop (stops : List (String × List StopDetails)) (stop : String)
    (d : StopDetails) : List (String × List StopDetails) :=
  if (stops.find? (fun p => p.1 == stop)).isSome then
    stops.map (fun p => if p.1 == stop then (p.1, p.2 ++ [d]) else p)
  else stops ++ [(stop, [d])]

/-- Lines 472-477: ensure `departure_times[route_no]` exists, then append
the detail under the stop name. -/
def appendDetail (g : Groups) (route stop : String) (d : StopDetails) :
    Groups :=
  if (g.find? (fun p => p.1 == route)).isSome then
    g.map (fun p => if p.1 == route then (p.1, appendToStop p.2 stop d) else p)
  else g ++ [(route, appendToStop [] stop d)]

/-- The `for arrival_time in next_times` loop (lines 451-477). -/
def buildGroups (next_times : List Departure) (feed_entities : List TUEntity)
    (vehicle_positions : List (String × Position)) : Groups :=
  next_times.foldl
    (fun g d =>
      appendDetail g d.route d.stop_name
        (processDeparture feed_entities vehicle_positions d))
    []

/-- The sort key of `departure_times[route_no][stop_name].sort(key=lambda
t: t.arrival_time)`. -/
def stopLe (a b : StopDetails) : Prop := a.arrival_time ≤ b.arrival_time

/-- Strict ascent on effective arrival time. -/
def stopLt (a b : StopDetails) : Prop := a.arrival_time < b.arrival_time

instance : DecidableRel stopLe := fun a b => Int.decLe a.arrival_time b.arrival_time

instance : DecidableRel stopLt := fun a b => Int.decLt a.arrival_time b.arrival_time

instance : IsTotal StopDetails stopLe :=
  ⟨fun a b => Int.le_total a.arrival_time b.arrival_time⟩

instance : IsTrans StopDetails stopLe := ⟨fun _ _ _ hab hbc => le_trans hab hbc⟩

/-- Lines 479-484: sort every (route, stop) list in place by
`arrival_time` — Python `list.sort` is a stable ascending sort, modelled by
`List.insertionSort`. -/
def sortGroups (g : Groups) : Groups :=
  g.map (fun rp => (rp.1, rp.2.map (fun sp => (sp.1, List.insertionSort stopLe sp.2))))

/-- Model of `_update_route_statuses` from the point where the trip-update
response is in hand (sensor.py lines 437-486).  A status code other than 200
only logs an error (lines 441-445); `feed.ParseFromString(response.content)`
runs unconditionally at line 447 and the decoded body is used, so the output
is built from the response body regardless of the status code. -/
def update_route_statuses (next_times : List Departure)
    (response : TripResponse)
    (vehicle_positions : List (String × Position)) : Groups :=
  sortGroups (buildGroups next_times response.content vehicle_positions)

/-! ## Concrete fixtures

A minimal consistent schedule: stop "Main St" (id `S1`), route "145" of
operator `OP1` (id `R1`), trip `T1` on service `SV`, serving `S1` at
08:30:00, with a calendar running the service every weekday over
1970-01-01..1970-01-02 and no exceptions.  The current instant is
1970-01-01 08:00:00. -/

def dbW : DB :=
  { stops := [⟨"S1", "Main St"⟩]
    routes := [⟨"OP1", "R1", "145"⟩]
    trips := [⟨"T1", "SV", "R1"⟩]
    stop_times := [⟨"T1", "S1", ⟨1970, 1, 1, 8, 29, 0⟩, ⟨1970, 1, 1, 8, 30, 0⟩⟩]
    calendar := [⟨"SV", 1, 1, 1, 1, 1, 1, 1, ⟨1970, 1, 1⟩, ⟨1970, 1, 2⟩⟩]
    calendar_dates := [] }

def nowW : DateTime := ⟨1970, 1, 1, 8, 0, 0⟩

def selW : Selector := ⟨"Main St", "145", "OP1"⟩

/-- The departure `get_times dbW nowW [selW]` produces: 30 minutes until
the 08:30:00 departure. -/
def depW : Departure := ⟨"Main St", "145", "T1", 30, "1970-01-01 08:30:00.000000"⟩

/-! ## C9: departures returned by get_times have non-negative minutes -/

/-- Every departure produced by the trip loop has `0 ≤ minutes`: an entry
is only appended under the `epoch_dep >= epoch_now` guard, and its minutes
field is `int(diff / 60)` of the non-negative difference. -/
theorem processTrips_nonneg (db : DB) (now : DateTime)
    (sid sname rname : String) :
    ∀ (trips : List TripRow) (l : List Departure),
      processTrips db now sid sname rname trips = .ok l →
      ∀ d ∈ l, 0 ≤ d.minutes := by
  intro trips
  induction trips with
  | nil =>
    intro l h d hd
    cases h
    simp at hd
  | cons t ts ih =>
    intro l h d hd
    simp only [processTrips] at h
    split at h
    · exact ih l h d hd
    · split at h
      · next hguard =>
        split at h
        · cases h
        · split at h
          · cases h
          · next rest hrest =>
            split at h
            · cases h
              rcases List.mem_cons.mp hd with rfl | h2
              · exact Int.tdiv_nonneg (by omega) (by norm_num)
              · exact ih rest hrest d h2
            · cases h
              exact ih _ hrest d hd
      · exact ih l h d hd

/-- Every departure produced by the selector loop has `0 ≤ minutes`. -/
theorem processSelectors_nonneg (db : DB) (now : DateTime) :
    ∀ (sels : List Selector) (l : List Departure),
      processSelectors db now sels = .ok l → ∀ d ∈ l, 0 ≤ d.minutes := by
  intro sels
  induction sels with
  | nil =>
    intro l h d hd
    cases h
    simp at hd
  | cons s ss ih =>
    intro l h d hd
    simp only [processSelectors] at h
    split at h
    · cases h
    · split at h
      · cases h
      · split at h
        · cases h
        · next here hhere =>
          split at h
          · cases h
          · next rest hrest =>
            cases h
            rcases List.mem_append.mp hd with h1 | h2
            · exact processTrips_nonneg db now _ _ _ _ here hhere d h1
            · exact ih rest hrest d h2

/-- C9: every Departure returned by the departure finder has
minutes-until-departure greater than or equal to zero — departures whose
scheduled instant is strictly before the current instant are excluded by
the `epoch_dep >= epoch_now` guard before they are collected, and sorting
and truncation only remove elements. -/
theorem C9_minutes_nonneg (db : DB) (now : DateTime) (sels : List Selector)
    (set_limit : Nat) (l : List Departure)
    (h : get_times db now sels set_limit = .ok l) :
    ∀ d ∈ l, 0 ≤ d.minutes := by
  intro d hd
  unfold get_times at h
  split at h
  · cases h
  · next l0 hl0 =>
    cases h
    have hmem : d ∈ List.insertionSort depLe l0 :=
      List.Sublist.mem hd (List.take_sublist _ _)
    have hmem0 : d ∈ l0 := (List.perm_insertionSort depLe l0).mem_iff.mp hmem
    exact processSelectors_nonneg db now sels l0 hl0 d hmem0

/-- Witness for C9 at the concrete fixture. -/
theorem C9_witness : 0 ≤ depW.minutes :=
  C9_minutes_nonneg dbW nowW [selW] 30 [depW] rfl depW (List.mem_singleton.mpr rfl)

/-! ## C7: the cap is applied after the stable ascending sort -/

/-- C7: when the collection loop succeeds with list `collected`, the output
of `get_times` is the `set_limit`-prefix of the stable ascending sort of
`collected`: its length is at most the limit, it is sorted ascending by
minutes, and together with the dropped suffix it is a permutation of
`collected` in which no excluded departure has smaller minutes than any
included one. -/
theorem C7_cap_after_sort (db : DB) (now : DateTime) (sels : List Selector)
    (set_limit : Nat) (collected : List Departure)
    (h : processSelectors db now sels = .ok collected) :
    ∃ out excluded : List Departure,
      get_times db now sels set_limit = .ok out ∧
      out = (List.insertionSort depLe collected).take set_limit ∧
      out.length ≤ set_limit ∧
      List.Pairwise depLe out ∧
      (out ++ excluded).Perm collected ∧
      ∀ a ∈ out, ∀ b ∈ excluded, a.minutes ≤ b.minutes := by
  refine ⟨(List.insertionSort depLe collected).take set_limit,
    (List.insertionSort depLe collected).drop set_limit, ?_, rfl, ?_, ?_, ?_, ?_⟩
  · unfold get_times
    rw [h]
  · exact List.length_take_le _ _
  · exact List.Pairwise.sublist (List.take_sublist _ _)
      (List.sorted_insertionSort depLe collected)
  · rw [List.take_append_drop]
    exact List.perm_insertionSort depLe collected
  · have hs : List.Pairwise depLe
        (List.insertionSort depLe collected) :=
      List.sorted_insertionSort depLe collected
    rw [← List.take_append_drop set_limit
      (List.insertionSort depLe collected)] at hs
    exact fun a ha b hb => (List.pairwise_append.mp hs).2.2 a ha b hb

/-- Witness for C7 at the concrete fixture. -/
theorem C7_witness :
    ∃ out excluded : List Departure,
      get_times dbW nowW [selW] 30 = .ok out ∧
      out = (List.insertionSort depLe [depW]).take 30 ∧
      out.length ≤ 30 ∧
      List.Pairwise depLe out ∧
      (out ++ excluded).Perm [depW] ∧
      ∀ a ∈ out, ∀ b ∈ excluded, a.minutes ≤ b.minutes :=
  C7_cap_after_sort dbW nowW [selW] 30 [depW] rfl

/-! ## C10: duplicate vehicle ids — last write wins -/

/-- The last element of a list satisfying `p`, where later elements win —
the claim's "last such entity in feed order". -/
def lastMatch (p : VehicleEntity → Bool) : List VehicleEntity → Option VehicleEntity
  | [] => none
  | e :: es =>
    match lastMatch p es with
    | some x => some x
    | none => if p e then some e else none

/-- In-service entity (`vehicle.trip.route_id` non-empty) carrying vehicle
identifier `vid`. -/
def inServiceWith (vid : String) (e : VehicleEntity) : Bool :=
  e.trip_route_id != "" && e.vehicle_id == vid

/-- Replacing the value under key `k` does not change which element
`find?` on the key `k` locates — only its payload. -/
theorem find_map_replace (m : List (String × Position)) (k : String)
    (v : Position) :
    (m.map (fun p => if p.1 == k then (k, v) else p)).find?
        (fun p => p.1 == k) =
      (m.find? (fun p => p.1 == k)).map (fun _ => (k, v)) := by
  rw [List.find?_map]
  have hpred : ((fun p : String × Position => p.1 == k) ∘
      (fun p => if p.1 == k then (k, v) else p)) =
      fun p : String × Position => p.1 == k := by
    funext p
    by_cases h : p.1 = k <;> simp [h]
  rw [hpred]
  cases hf : m.find? (fun p => p.1 == k) with
  | none => rfl
  | some p =>
    have hp : (p.1 == k) = true := by simpa using List.find?_some hf
    simp only [Option.map_some']
    rw [show (if p.1 == k then (k, v) else p) = (k, v) from by rw [hp]; rfl]

/-- Replacing the value under key `k` leaves lookups of any other key
untouched. -/
theorem find_map_replace_ne (m : List (String × Position)) (k : String)
    (v : Position) (k' : String) (h : k' ≠ k) :
    (m.map (fun p => if p.1 == k then (k, v) else p)).find?
        (fun p => p.1 == k') =
      m.find? (fun p => p.1 == k') := by
  rw [List.find?_map]
  have hpred : ((fun p : String × Position => p.1 == k') ∘
      (fun p => if p.1 == k then (k, v) else p)) =
      fun p : String × Position => p.1 == k' := by
    funext p
    by_cases hp : p.1 = k <;> simp [hp]
  rw [hpred]
  cases hf : m.find? (fun p => p.1 == k') with
  | none => rfl
  | some p =>
    have hp : (p.1 == k') = true := by simpa using List.find?_some hf
    have hpk : (p.1 == k) = false := by
      simp only [beq_iff_eq] at hp
      simp only [beq_eq_false_iff_ne]
      rw [hp]
      exact h
    simp only [Option.map_some']
    rw [show (if p.1 == k then (k, v) else p) = p from by rw [hpk]; rfl]

theorem dictGet_insert_self (m : List (String × Position)) (k : String)
    (v : Position) :
    dictGet (dictInsert m k v) k = some v := by
  unfold dictInsert dictGet
  split
  · next hsome =>
    rw [find_map_replace]
    cases hfind : m.find? (fun p => p.1 == k) with
    | none => rw [hfind] at hsome; simp at hsome
    | some p => simp
  · next hnone =>
    rw [Option.not_isSome_iff_eq_none] at hnone
    rw [List.find?_append, hnone]
    simp [List.find?_cons]

theorem dictGet_insert_ne (m : List (String × Position)) (k : String)
    (v : Position) (k' : String) (h : k' ≠ k) :
    dictGet (dictInsert m k v) k' = dictGet m k' := by
  unfold dictInsert dictGet
  split
  · rw [find_map_replace_ne m k v k' h]
  · rw [List.find?_append]
    have hkk : ((k, v).1 == k') = false := by
      simp only [beq_eq_false_iff_ne]
      exact fun hc => h hc.symm
    cases hfind : m.find? (fun p => p.1 == k') with
    | some p => simp
    | none => simp [List.find?_cons, hkk]

theorem countKey_map_replace (m : List (String × Position)) (k : String)
    (v : Position) (k' : String) :
    countKey (m.map (fun p => if p.1 == k then (k, v) else p)) k' =
      countKey m k' := by
  unfold countKey
  rw [List.filter_map]
  have hpred : ((fun p : String × Position => p.1 == k') ∘
      (fun p => if p.1 == k then (k, v) else p)) =
      fun p : String × Position => p.1 == k' := by
    funext p
    by_cases hp : p.1 = k <;> simp [hp]
  rw [hpred, List.length_map]

theorem countKey_append (m n : List (String × Position)) (k : String) :
    countKey (m ++ n) k = countKey m k + countKey n k := by
  simp [countKey, List.filter_append]

theorem countKey_eq_zero_of_find_none (m : List (String × Position))
    (k : String) (h : m.find? (fun p => p.1 == k) = none) :
    countKey m k = 0 := by
  rw [List.find?_eq_none] at h
  unfold countKey
  rw [List.length_eq_zero, List.filter_eq_nil_iff]
  exact h

theorem countKey_insert_le_one (m : List (String × Position)) (k : String)
    (v : Position) (k' : String) (h : countKey m k' ≤ 1) :
    countKey (dictInsert m k v) k' ≤ 1 := by
  unfold dictInsert
  split
  · rw [countKey_map_replace]
    exact h
  · next hnone =>
    rw [Option.not_isSome_iff_eq_none] at hnone
    rw [countKey_append]
    by_cases hk : k = k'
    · have h0 : countKey m k' = 0 := by
        rw [← hk]
        exact countKey_eq_zero_of_find_none m k hnone
      have h1 : countKey [(k, v)] k' ≤ 1 := by
        unfold countKey
        cases hfk : List.filter (fun p => p.1 == k') [(k, v)] <;> simp_all
      omega
    · have h1 : countKey [(k, v)] k' = 0 := by
        simp [countKey, List.filter_cons, hk]
      omega

theorem countKey_pos_of_find_isSome (m : List (String × Position))
    (k : String) (h : (m.find? (fun p => p.1 == k)).isSome) :
    0 < countKey m k := by
  obtain ⟨p, hp⟩ := Option.isSome_iff_exists.mp h
  have hmem := List.mem_of_find?_eq_some hp
  have hpk := List.find?_some hp
  unfold countKey
  exact List.length_pos.mpr
    (List.ne_nil_of_mem (List.mem_filter.mpr ⟨hmem, hpk⟩))

/-- The vehicle-position fold looks up to the position of the last
in-service entity with the given id; when no entity matches, the
accumulator's binding is untouched. -/
theorem vpFold_dictGet (vid : String) :
    ∀ (entities : List VehicleEntity) (m : List (String × Position)),
      dictGet (entities.foldl vpStep m) vid =
        match lastMatch (inServiceWith vid) entities with
        | some e => some e.position
        | none => dictGet m vid := by
  intro entities
  induction entities with
  | nil => intro m; rfl
  | cons e es ih =>
    intro m
    rw [List.foldl_cons, ih]
    cases hlm : lastMatch (inServiceWith vid) es with
    | some x => simp [lastMatch, hlm]
    | none =>
      simp only [lastMatch, hlm]
      by_cases hserv : e.trip_route_id = ""
      · simp [vpStep, inServiceWith, hserv]
      · by_cases hvid : e.vehicle_id = vid
        · subst hvid
          simp [vpStep, inServiceWith, hserv, dictGet_insert_self]
        · simp [vpStep, inServiceWith, hserv, hvid,
            dictGet_insert_ne m e.vehicle_id e.position vid
              (fun hc => hvid hc.symm)]

/-- The vehicle-position fold keeps each key at most once. -/
theorem vpFold_countKey_le_one (vid : String) :
    ∀ (entities : List VehicleEntity) (m : List (String × Position)),
      countKey m vid ≤ 1 → countKey (entities.foldl vpStep m) vid ≤ 1 := by
  intro entities
  induction entities with
  | nil => intro m h; exact h
  | cons e es ih =>
    intro m h
    rw [List.foldl_cons]
    apply ih
    unfold vpStep
    split
    · exact h
    · exact countKey_insert_le_one _ _ _ _ h

theorem lastMatch_isSome_of_mem {p : VehicleEntity → Bool} :
    ∀ {entities : List VehicleEntity} {e : VehicleEntity},
      e ∈ entities → p e = true → (lastMatch p entities).isSome := by
  intro entities
  induction entities with
  | nil => intro e h; simp at h
  | cons a as ih =>
    intro e hmem hp
    rcases List.mem_cons.mp hmem with rfl | h2
    · cases hlm : lastMatch p as <;> simp [lastMatch, hlm, hp]
    · have hs := ih h2 hp
      cases hlm : lastMatch p as with
      | none => rw [hlm] at hs; simp at hs
      | some x => simp [lastMatch, hlm]

/-- C10: when at least two in-service entities of the decoded
vehicle-position feed carry the same vehicle identifier, the returned
mapping holds that identifier exactly once, bound to the position of the
last such entity in feed order. -/
theorem C10_last_write_wins (response : VehicleResponse) (vid : String)
    (h : 2 ≤ (response.content.filter (inServiceWith vid)).length) :
    countKey (get_vehicle_positions response) vid = 1 ∧
    (lastMatch (inServiceWith vid) response.content).isSome ∧
    dictGet (get_vehicle_positions response) vid =
      (lastMatch (inServiceWith vid) response.content).map
        (fun e => e.position) := by
  have hex : ∃ e ∈ response.content, inServiceWith vid e = true := by
    have hne : response.content.filter (inServiceWith vid) ≠ [] := by
      intro hnil
      rw [hnil] at h
      simp at h
    obtain ⟨e, he⟩ := List.exists_mem_of_ne_nil _ hne
    exact ⟨e, (List.mem_filter.mp he).1, (List.mem_filter.mp he).2⟩
  obtain ⟨e, hmem, hp⟩ := hex
  have hsome := lastMatch_isSome_of_mem hmem hp
  obtain ⟨x, hx⟩ := Option.isSome_iff_exists.mp hsome
  have hget : dictGet (get_vehicle_positions response) vid = some x.position := by
    unfold get_vehicle_positions
    rw [vpFold_dictGet, hx]
  refine ⟨?_, hsome, ?_⟩
  · have hle : countKey (get_vehicle_positions response) vid ≤ 1 := by
      unfold get_vehicle_positions
      exact vpFold_countKey_le_one vid response.content [] (by simp [countKey])
    have hpos : 0 < countKey (get_vehicle_positions response) vid := by
      apply countKey_pos_of_find_isSome
      unfold dictGet at hget
      cases hf : (get_vehicle_positions response).find? (fun p => p.1 == vid) with
      | none => rw [hf] at hget; simp at hget
      | some p => simp
    omega
  · rw [hget, hx]
    rfl

/-- The two-entity duplicate-id feed used to witness C10. -/
def respC10 : VehicleResponse :=
  ⟨200, [⟨"r", "v", ⟨1, 1⟩⟩, ⟨"r", "v", ⟨2, 2⟩⟩]⟩

/-- Witness for C10: two in-service entities with id "v"; the map binds "v"
once, to the second entity's position. -/
theorem C10_witness :
    countKey (get_vehicle_positions respC10) "v" = 1 ∧
    (lastMatch (inServiceWith "v") respC10.content).isSome ∧
    dictGet (get_vehicle_positions respC10) "v" =
      (lastMatch (inServiceWith "v") respC10.content).map
        (fun e => e.position) :=
  C10_last_write_wins respC10 "v" (by decide)

/-! ## C1: how the merge applies the per-trip delay -/

/-- The delay minutes the entity loop actually adds for trip `trip_no`:
over every trip-update entity whose trip identifier matches, and every
stop-time update with an `arrival` field, the seconds are divided by 60
with truncation toward zero (Python `int(delay / 60)`) per update, and
those per-update minute values are summed. -/
def perUpdateDelayMinutes (feed_entities : List TUEntity) (trip_no : String) :
    Int :=
  (((feed_entities.filterMap (fun e => e.trip_update)).filter
      (fun tu => tu.trip_id == trip_no)).map
    (fun tu => ((tu.stop_time_update.filter (fun s => s.hasArrival)).map
      (fun s => Int.tdiv s.arrivalDelay 60)).sum)).sum

/-- What the claim states: sum the raw `arrival.delay` seconds of the
matching trip-update entities into one accumulated per-trip total, and take
the mathematical floor of that total divided by 60, once. -/
def claimedEffectiveArrival (feed_entities : List TUEntity) (d : Departure) :
    Int :=
  d.minutes + Int.fdiv
    ((((feed_entities.filterMap (fun e => e.trip_update)).filter
        (fun tu => tu.trip_id == d.trip_id)).map
      (fun tu => ((tu.stop_time_update.filter (fun s => s.hasArrival)).map
        (fun s => s.arrivalDelay)).sum)).sum) 60

theorem stopDelaySum_eq (updates : List StopTimeUpdate) :
    stopDelaySum updates =
      ((updates.filter (fun s => s.hasArrival)).map
        (fun s => Int.tdiv s.arrivalDelay 60)).sum := by
  have key : ∀ (l : List StopTimeUpdate) (acc : Int),
      l.foldl
          (fun acc stop =>
            if stop.hasArrival then acc + Int.tdiv stop.arrivalDelay 60
            else acc) acc =
        acc + ((l.filter (fun s => s.hasArrival)).map
          (fun s => Int.tdiv s.arrivalDelay 60)).sum := by
    intro l
    induction l with
    | nil => intro acc; simp
    | cons s ss ih =>
      intro acc
      by_cases h : s.hasArrival
      · simp [List.foldl_cons, List.filter_cons, h, ih]
        ring
      · simp [List.foldl_cons, List.filter_cons, h, ih]
  simpa using key updates 0

/-- The first component of the entity fold accumulates exactly the
per-update minutes for the departure's trip, on top of the start value. -/
theorem mergeFold_fst (vps : List (String × Position)) (trip_no : String) :
    ∀ (entities : List TUEntity) (m : Int) (v : VehiclePositionValue),
      (entities.foldl (mergeStep vps trip_no) (m, v)).1 =
        m + perUpdateDelayMinutes entities trip_no := by
  intro entities
  induction entities with
  | nil =>
    intro m v
    simp [perUpdateDelayMinutes]
  | cons e es ih =>
    intro m v
    rw [List.foldl_cons]
    cases htu : e.trip_update with
    | none =>
      rw [show mergeStep vps trip_no (m, v) e = (m, v) from by
        simp [mergeStep, htu]]
      rw [ih]
      simp [perUpdateDelayMinutes, List.filterMap_cons, htu]
    | some tu =>
      by_cases hmatch : tu.trip_id == trip_no
      · rw [show mergeStep vps trip_no (m, v) e =
            (m + stopDelaySum tu.stop_time_update,
             match dictGet vps tu.vehicle_id with
             | some p => VehiclePositionValue.pos p
             | none => VehiclePositionValue.pyNone) from by
          simp [mergeStep, htu, hmatch]]
        rw [ih]
        simp [perUpdateDelayMinutes, List.filterMap_cons, htu,
          List.filter_cons, hmatch, stopDelaySum_eq]
        ring
      · rw [show mergeStep vps trip_no (m, v) e =
            (m,
             match dictGet vps tu.vehicle_id with
             | some p => VehiclePositionValue.pos p
             | none => VehiclePositionValue.pyNone) from by
          simp [mergeStep, htu, hmatch]]
        rw [ih]
        simp [perUpdateDelayMinutes, List.filterMap_cons, htu,
          List.filter_cons, hmatch]

/-- C1 (amended): the effective arrival time the merge computes is the
static minutes plus, for each matching trip-update entity and each of its
stop-time updates with an arrival field, `delay / 60` truncated toward zero
— per stop-time update, not floored once over the summed seconds. -/
theorem C1_effective_arrival (feed_entities : List TUEntity)
    (vehicle_positions : List (String × Position)) (d : Departure) :
    (processDeparture feed_entities vehicle_positions d).arrival_time =
      d.minutes + perUpdateDelayMinutes feed_entities d.trip_id := by
  unfold processDeparture
  exact mergeFold_fst vehicle_positions d.trip_id feed_entities d.minutes
    VehiclePositionValue.intZero

/-- A departure ten minutes out on trip `T1`. -/
def depTen : Departure := ⟨"Main St", "145", "T1", 10, "1970-01-01 08:30:00.000000"⟩

/-- A feed whose single entity matches trip `T1` and carries two stop-time
updates of 30 seconds of arrival delay each. -/
def feedC1 : List TUEntity := [⟨some ⟨"T1", [⟨true, 30⟩, ⟨true, 30⟩], "v1"⟩⟩]

/-- C1 counterexample: with two 30-second arrival delays on the matching
entity the code adds `int(30/60) + int(30/60) = 0` minutes (arrival stays
10), while the claim's floor-once-over-the-sum gives
`10 + (30+30)/60 = 11`. -/
theorem C1_counterexample :
    (processDeparture feedC1 [] depTen).arrival_time ≠
      claimedEffectiveArrival feedC1 depTen := by
  decide

/-! ## C8: ordering of a (route, stop) group after the merge -/

theorem find_map_fstPreserving {β γ : Type} (f : String × β → String × γ)
    (hf : ∀ p, (f p).1 = p.1) (l : List (String × β)) (key : String) :
    (l.map f).find? (fun p => p.1 == key) =
      (l.find? (fun p => p.1 == key)).map f := by
  rw [List.find?_map]
  have hpred : ((fun p : String × γ => p.1 == key) ∘ f) =
      fun p : String × β => p.1 == key := by
    funext p
    simp [Function.comp, hf p]
  rw [hpred]

/-- Looking a group up after the per-group sort returns the sorted version
of the group looked up before it. -/
theorem groupsGet_sortGroups (g : Groups) (r s : String) :
    groupsGet (sortGroups g) r s =
      List.insertionSort stopLe (groupsGet g r s) := by
  have h1 := find_map_fstPreserving
    (fun rp : String × List (String × List StopDetails) =>
      (rp.1, rp.2.map (fun sp => (sp.1, List.insertionSort stopLe sp.2))))
    (fun _ => rfl) g r
  unfold groupsGet sortGroups
  rw [h1]
  cases hr : g.find? (fun p => p.1 == r) with
  | none => simp
  | some rp =>
    have h2 := find_map_fstPreserving
      (fun sp : String × List StopDetails =>
        (sp.1, List.insertionSort stopLe sp.2))
      (fun _ => rfl) rp.2 s
    simp only [Option.map_some']
    rw [h2]
    cases hs : rp.2.find? (fun p => p.1 == s) with
    | none => simp
    | some sp => simp

/-- C8 (amended): within every (route, stop) group the merge output is
ascending by effective arrival time, and strictly ascending whenever the
effective arrival times in the group are pairwise distinct.  (Distinct
static minutes alone do not guarantee distinct effective times once delays
are applied — see the counterexample.) -/
theorem C8_group_ordering (next_times : List Departure)
    (response : TripResponse)
    (vehicle_positions : List (String × Position)) (route stop : String) :
    List.Pairwise stopLe
      (groupsGet (update_route_statuses next_times response vehicle_positions)
        route stop) ∧
    (((groupsGet (update_route_statuses next_times response vehicle_positions)
          route stop).map (fun t => t.arrival_time)).Nodup →
      List.Pairwise stopLt
        (groupsGet (update_route_statuses next_times response vehicle_positions)
          route stop)) := by
  unfold update_route_statuses
  rw [groupsGet_sortGroups]
  constructor
  · exact List.sorted_insertionSort stopLe _
  · intro hnodup
    have h1 : List.Pairwise stopLe
        (List.insertionSort stopLe
          (groupsGet (buildGroups next_times response.content vehicle_positions)
            route stop)) :=
      List.sorted_insertionSort stopLe _
    have h2 : List.Pairwise
        (fun a b : StopDetails => a.arrival_time ≠ b.arrival_time)
        (List.insertionSort stopLe
          (groupsGet (buildGroups next_times response.content vehicle_positions)
            route stop)) :=
      List.pairwise_map.mp hnodup
    exact (h1.and h2).imp (fun h => lt_of_le_of_ne h.1 h.2)

/-- Departure five minutes out on trip `t1`, route `R`, stop `S`. -/
def dC8a : Departure := ⟨"S", "R", "t1", 5, "1970-01-01 08:05:00.000000"⟩

/-- Departure seven minutes out on trip `t2`, same route and stop. -/
def dC8b : Departure := ⟨"S", "R", "t2", 7, "1970-01-01 08:07:00.000000"⟩

/-- A feed delaying trip `t1` by 120 seconds. -/
def feedC8 : List TUEntity := [⟨some ⟨"t1", [⟨true, 120⟩], "v"⟩⟩]

/-- C8 counterexample: the two departures have distinct static minutes
(5 ≠ 7), but the 120-second delay moves the first to an effective arrival
of 7, equal to the second's, so the group is not strictly ascending. -/
theorem C8_counterexample :
    dC8a.minutes ≠ dC8b.minutes ∧
    ¬ List.Pairwise stopLt
        (groupsGet (update_route_statuses [dC8a, dC8b] ⟨200, feedC8⟩ [])
          "R" "S") := by
  constructor
  · decide
  · decide

/-- Witness for C8 with an empty feed: effective times 5 and 7 are
distinct, and the group is strictly ascending. -/
theorem C8_witness :
    List.Pairwise stopLt
      (groupsGet (update_route_statuses [dC8a, dC8b] ⟨200, []⟩ []) "R" "S") :=
  (C8_group_ordering [dC8a, dC8b] ⟨200, []⟩ [] "R" "S").2 (by decide)

/-! ## C2: the readers decode non-success responses -/

/-- A trip-update entity delaying trip `T1` by 120 seconds, carried in the
body of an HTTP error response below. -/
def entC2 : TUEntity := ⟨some ⟨"T1", [⟨true, 120⟩], "v1"⟩⟩

/-- C2 evidence: handed a response with status code 500, the merge pipeline
still parses and uses the body — the 120-second delay moves the arrival of
`depTen` from its static 10 minutes to 12 — and the vehicle-position reader
still returns the decoded, non-empty map.  Neither path returns an empty
result with an error value; the source has no error return at all (it logs
and falls through to `feed.ParseFromString(response.content)` at lines
441-447 and 493-498). -/
theorem C2_decodes_non_success_response :
    update_route_statuses [depTen] ⟨500, [entC2]⟩ [] =
      [("145", [("Main St",
        [⟨12, VehiclePositionValue.pyNone, " 08:30"⟩])])] ∧
    get_vehicle_positions ⟨500, [⟨"r1", "v9", ⟨1, 2⟩⟩]⟩ = [("v9", ⟨1, 2⟩)] :=
  ⟨rfl, rfl⟩

/-! ## C3: the calendar range check is sensitive to the time of day -/

/-- A calendar with all weekday flags set whose range ends 2026-10-12, and
no exceptions. -/
def dbC3 : DB :=
  { stops := []
    routes := []
    trips := []
    stop_times := []
    calendar := [⟨"s", 1, 1, 1, 1, 1, 1, 1, ⟨2026, 10, 6⟩, ⟨2026, 10, 12⟩⟩]
    calendar_dates := [] }

/-- C3 evidence: on the last day of the range the validator answers `true`
at exactly midnight but `false` at noon of the same date — `d_t` carries the
time of day while `dt2` is the midnight epoch of `end_date`, so the result
depends on the time of day and the end date is not honoured as a whole
inclusive calendar date. -/
theorem C3_range_check_time_of_day :
    validate_service dbC3 ⟨2026, 10, 12, 0, 0, 0⟩ "s" = .ok true ∧
    validate_service dbC3 ⟨2026, 10, 12, 12, 0, 0⟩ "s" = .ok false :=
  ⟨rfl, rfl⟩

/-! ## C4: a missing calendar row crashes the validator -/

/-- The fixture schedule with its `calendar` table emptied: trip `T1` still
references service `SV`, but no calendar row exists for it. -/
def dbC4 : DB :=
  { stops := [⟨"S1", "Main St"⟩]
    routes := [⟨"OP1", "R1", "145"⟩]
    trips := [⟨"T1", "SV", "R1"⟩]
    stop_times := [⟨"T1", "S1", ⟨1970, 1, 1, 8, 29, 0⟩, ⟨1970, 1, 1, 8, 30, 0⟩⟩]
    calendar := []
    calendar_dates := [] }

/-- C4 evidence: with no calendar row for `SV`, `validate_service` raises
`TypeError` (`list(None)` at sensor.py line 136) instead of reporting a
NotFound condition, and the error propagates out of the whole `get_times`
call — the trip is not excluded, the call dies. -/
theorem C4_missing_calendar_row_raises :
    validate_service dbC4 nowW "SV" = .error .typeError ∧
    get_times dbC4 nowW [selW] 30 = .error .typeError :=
  ⟨rfl, rfl⟩

/-! ## C5: an unresolvable selector crashes the whole call -/

/-- A selector whose stop name matches no stop. -/
def badStopSel : Selector := ⟨"Nowhere", "145", "OP1"⟩

/-- A selector whose (route short name, operator) pair matches no route. -/
def badRouteSel : Selector := ⟨"Main St", "999", "OP1"⟩

/-- C5 evidence: a selector with an unknown stop name raises `TypeError`
(`stop_data[0]` at sensor.py line 178), as does one with an unknown
route/operator pair (`valid_operator[1]` at line 189, reached before the
`is not None` test at line 191); with a bad selector in the list the whole
call errors and the well-configured selector's results are lost, although
alone that selector succeeds. -/
theorem C5_unresolved_selector_raises :
    get_times dbW nowW [badStopSel] 30 = .error .typeError ∧
    get_times dbW nowW [badRouteSel] 30 = .error .typeError ∧
    get_times dbW nowW [badStopSel, selW] 30 = .error .typeError ∧
    get_times dbW nowW [selW] 30 = .ok [depW] :=
  ⟨rfl, rfl, rfl, rfl⟩

/-! ## C6: vehicle-position linkage ignores the trip match -/

/-- Positions for vehicles `v1` and `v2`. -/
def vpsC6 : List (String × Position) := [("v1", ⟨11, 12⟩), ("v2", ⟨21, 22⟩)]

/-- An entity whose trip matches `depTen`'s trip `T1`, with vehicle `v1`. -/
def entMatch : TUEntity := ⟨some ⟨"T1", [], "v1"⟩⟩

/-- An entity for the unrelated trip `T9`, with vehicle `v2`. -/
def entOther : TUEntity := ⟨some ⟨"T9", [], "v2"⟩⟩

/-- C6 evidence: the `vehicle_positions.get` assignment at sensor.py lines
468-470 sits outside the `trip_id == trip_no` test, so every trip-update
entity overwrites `vehicle_position`.  With the matching entity (vehicle
`v1`) followed by an unrelated one (vehicle `v2`), the departure is given
`v2`'s position even though `v1` has one of its own; with only the
unrelated entity in the feed — i.e. no entity mentioning trip `T1` — it is
given `v2`'s position rather than no position; and with an empty feed the
position is the integer `0` the variable was initialised with, not an
absent value. -/
theorem C6_position_linkage_broken :
    (processDeparture [entMatch, entOther] vpsC6 depTen).position =
      VehiclePositionValue.pos ⟨21, 22⟩ ∧
    dictGet vpsC6 "v1" = some ⟨11, 12⟩ ∧
    (processDeparture [entOther] vpsC6 depTen).position =
      VehiclePositionValue.pos ⟨21, 22⟩ ∧
    (processDeparture [] vpsC6 depTen).position =
      VehiclePositionValue.intZero :=
  ⟨rfl, rfl, rfl, rfl⟩

end GtfsRtIrl
